import Mathlib

/-!
Verification of the Rebel extension-orchestration core (cmnd package).

Shallow embedding of:
  * `cmnd/hooks.py`       — event dispatcher (registry, `register`, `fire`)
  * `cmnd/agent_mode.py`  — agent orchestrator (`plan_goal`, `_execute_step`, `run_agent`)
  * `cmnd/mcp_client.py`  — protocol-layer client (`MCPSession._request` header validation)
  * `cmnd/mcp_server.py`  — protocol-layer server (`_MCPHandler.do_POST`, `do_DELETE`,
    session registry, tool dispatch / `isError` computation)

Conventions: Python strings are Lean `String`s; Python `Optional[T]` is `Option T`;
a Python function that may raise is embedded with `Except`; dict keys that the
claims depend on become structure fields.  Wall-clock fields (`duration`,
`started_at`, `created`) are outside the embedding and omitted, as are the
opaque host-assistant objects (`coder`, `edits`, `result`).
-/

namespace Rebel

/-- A single quote character, used when rebuilding the source's literal strings. -/
def squote : String := String.singleton (Char.ofNat 39)

/-- Python `str.lower()` (ASCII fragment), character by character. -/
def pyLower (s : String) : String := String.mk (s.data.map Char.toLower)

/-- Python `str.strip()`: drop leading and trailing whitespace. -/
def pyStrip (s : String) : String :=
  String.mk (((s.data.dropWhile Char.isWhitespace).reverse.dropWhile Char.isWhitespace).reverse)

/-- Python slicing `s[:n]`: the first `n` characters. -/
def pyTake (s : String) (n : Nat) : String := String.mk (s.data.take n)

/-- Python `.strip().lower()`, applied by `run_agent` to every operator
response. -/
def stripLower (s : String) : String := pyLower (pyStrip s)

/-- `needle in haystack` on character lists: some suffix of the haystack
starts with the needle. -/
def containsSub (needle : List Char) : List Char → Bool
  | [] => needle.isEmpty
  | c :: t => needle.isPrefixOf (c :: t) || containsSub needle t

-- ─────────────────────────────────────────────
-- cmnd/hooks.py — data model
-- ─────────────────────────────────────────────

/-- `HookEvent` enum from cmnd/hooks.py (13 lifecycle events). -/
inductive HookEvent where
  | PRE_MESSAGE | POST_MESSAGE | PRE_EDIT | POST_EDIT | PRE_COMMIT | POST_COMMIT
  | ON_MODEL_CHANGE | ON_STARTUP | ON_SHUTDOWN | ON_COMMAND | ON_TOOL_CALL
  | ON_SKILL_RUN | ON_AGENT_STEP
deriving DecidableEq, Repr

/-- `HookContext` dataclass from cmnd/hooks.py.  The `coder`, `edits` and
`result` fields hold opaque host-assistant objects and are omitted. -/
structure HookContext where
  event : HookEvent
  message : Option String := none
  files : Option (List String) := none
  model : Option String := none
  command : Option String := none
  args : Option String := none
  metadata : List (String × String) := []
  cancelled : Bool := false
  cancel_reason : Option String := none
deriving DecidableEq, Repr

/-- Outcome of calling one hook function on a context.  A Python handler can
mutate the context and then either return a value (`Optional[bool]`) or raise;
in both cases the mutated context survives, so each constructor carries it. -/
inductive HandlerOutcome where
  | raised (ctx : HookContext)
  | returned (v : Option Bool) (ctx : HookContext)

/-- A hook callable `fn(ctx) -> Optional[bool]` (which may raise). -/
def HookFn : Type := HookContext → HandlerOutcome

/-- `HookRegistration` dataclass from cmnd/hooks.py. -/
structure HookRegistration where
  event : HookEvent
  fn : HookFn
  priority : Int
  name : String
  source : String
  enabled : Bool := true

-- ─────────────────────────────────────────────
-- cmnd/hooks.py — register (append + stable sort by priority)
-- ─────────────────────────────────────────────

/-- Stable insertion of one registration into a priority-sorted list: the new
element goes after every element of equal or lower priority. -/
def insertByPriority (r : HookRegistration) : List HookRegistration → List HookRegistration
  | [] => [r]
  | x :: xs => if x.priority ≤ r.priority then x :: insertByPriority r xs else r :: x :: xs

/-- `list.sort(key=lambda r: r.priority)` — Python's sort is stable, embedded
as a stable left-to-right insertion sort. -/
def sortByPriority (l : List HookRegistration) : List HookRegistration :=
  l.foldl (fun acc r => insertByPriority r acc) []

/-- `register` from cmnd/hooks.py: `_registry.append(reg)` followed by
`_registry.sort(key=lambda r: r.priority)`. -/
def register (registry : List HookRegistration) (reg : HookRegistration) :
    List HookRegistration :=
  sortByPriority (registry ++ [reg])

/-- The registry produced by a sequence of `register` calls, in registration
order, starting from the empty `_registry`. -/
def buildRegistry (regs : List HookRegistration) : List HookRegistration :=
  regs.foldl register []

-- ─────────────────────────────────────────────
-- cmnd/hooks.py — fire
-- ─────────────────────────────────────────────

/-- The cancellation reason written by `fire`:
`f"Cancelled by hook '{reg.name}'"`. -/
def cancelMsg (name : String) : String :=
  "Cancelled by hook " ++ squote ++ name ++ squote

/-- The dispatch loop of `fire`.  Walks the registry in order, skipping
registrations for other events and disabled ones; a handler that raises is
caught and the loop continues; a handler returning exactly `False` sets the
cancellation fields and breaks.  Besides the final context it returns the
list of registrations actually invoked and whether the loop broke early. -/
def fireSteps : List HookRegistration → HookEvent → HookContext →
    HookContext × List HookRegistration × Bool
  | [], _, ctx => (ctx, [], false)
  | reg :: rest, event, ctx =>
    if reg.event = event ∧ reg.enabled = true then
      match reg.fn ctx with
      | .raised ctx' =>
        let r := fireSteps rest event ctx'
        (r.1, reg :: r.2.1, r.2.2)
      | .returned v ctx' =>
        if v = some false then
          ({ ctx' with cancelled := true, cancel_reason := some (cancelMsg reg.name) },
           [reg], true)
        else
          let r := fireSteps rest event ctx'
          (r.1, reg :: r.2.1, r.2.2)
    else fireSteps rest event ctx

/-- `fire(event, **kwargs)` from cmnd/hooks.py: build a fresh context and run
the dispatch loop over the registry; returns the context. -/
def fire (registry : List HookRegistration) (event : HookEvent) (ctx : HookContext) :
    HookContext :=
  (fireSteps registry event ctx).1

/-- The predicate selecting the registrations `fire` considers for an event. -/
def relevantFor (event : HookEvent) (r : HookRegistration) : Bool :=
  decide (r.event = event ∧ r.enabled = true)

-- ─────────────────────────────────────────────
-- cmnd/agent_mode.py — data model and planner
-- ─────────────────────────────────────────────

/-- `MAX_STEPS = 12` (SC-5 hard step cap) from cmnd/agent_mode.py. -/
def MAX_STEPS : Nat := 12

/-- `AgentStep` dataclass from cmnd/agent_mode.py (wall-clock `duration`
omitted). -/
structure AgentStep where
  index : Int
  description : String
  action : String
  content : String
  status : String := "pending"
  result : String := ""
deriving DecidableEq, Repr

/-- `AgentSession` dataclass from cmnd/agent_mode.py (wall-clock `started_at`
omitted). -/
structure AgentSession where
  goal : String
  steps : List AgentStep := []
  current_step : Int := 0
  status : String := "planning"
  notes : List String := []
deriving DecidableEq, Repr

/-- One entry of the planner response's `steps` list, as consumed by
`plan_goal`: a JSON object whose `index`/`description`/`action`/`content`
fields may each be absent (`s.get(key, default)`). -/
structure RawStep where
  index : Option Int := none
  description : Option String := none
  action : Option String := none
  content : Option String := none
deriving DecidableEq, Repr

/-- The parsed planner response, after `plan_goal` has already extracted JSON
from the model output: a `steps` list and an optional `risks` list. -/
structure PlanData where
  steps : List RawStep := []
  risks : List String := []
deriving DecidableEq, Repr

/-- The `AgentStep(...)` construction in `plan_goal`'s loop body: missing fields
degrade to the source's defaults (`index` 0, `action` "message", empty text). -/
def mkAgentStep (s : RawStep) : AgentStep :=
  { index := s.index.getD 0
    description := s.description.getD ""
    action := s.action.getD "message"
    content := s.content.getD "" }

/-- `plan_goal` from cmnd/agent_mode.py, after the Ollama call and JSON
extraction (modelled by the `data : PlanData` argument; the `None` returns on
unparseable responses correspond to the `Option PlanData` argument of
`run_agent` below).  Builds the session from `data.get("steps", [])[:MAX_STEPS]`
and extends notes with `data.get("risks")`. -/
def plan_goal (goal : String) (data : PlanData) : AgentSession :=
  { goal := goal
    steps := (data.steps.take MAX_STEPS).map mkAgentStep
    notes := data.risks }

-- ─────────────────────────────────────────────
-- cmnd/agent_mode.py — step executor
-- ─────────────────────────────────────────────

/-- `"Error" in result` — Python substring containment, used by the `mcp`
branch of `_execute_step`. -/
def containsErr (s : String) : Bool := containsSub "Error".data s.data

/-- Split a character list at the first occurrence of `sep`, when present. -/
def splitFirst (sep : Char) : List Char → Option (List Char × List Char)
  | [] => none
  | c :: t =>
    if c = sep then some ([], t)
    else (splitFirst sep t).map fun p => (c :: p.1, p.2)

/-- `step.content.split("/", 1)` in the `mcp` branch: `some (server, tool)`
when the content holds a slash (`len(parts) == 2`), `none` otherwise. -/
def splitSlashOnce (s : String) : Option (String × String) :=
  (splitFirst '/' s.data).map fun p => (String.mk p.1, String.mk p.2)

/-- `str(RuntimeError(f"Shell failed (rc=..): ..."))[:300]` as recorded in
`step.result` when a shell step's command returns a non-zero exit code. -/
def shellErrMsg (rc : Int) (out : String) : String :=
  pyTake ("Shell failed (rc=" ++ toString rc ++ "): " ++ pyTake out 200) 300

/-- The external collaborators `_execute_step` consults, one oracle per step:
the `ON_AGENT_STEP` hook firing (`some reason` when the returned context is
cancelled), `coder.run`, `run_skill`, `run_approved` and `mcp_client.call`.
Each is an `Except`, the error case being a raised exception caught by the
step's catch-all handler. -/
structure ExecEnv where
  hookCancel : AgentStep → Option String
  message : AgentStep → Except String Unit
  skill : AgentStep → Except String Bool
  shell : AgentStep → Except String (Int × String)
  mcp : AgentStep → Except String String

/-- Feedback messages `_execute_step` sends back to the host assistant
(`coder.run(with_message=...)`) after a successful shell or mcp step. -/
def shellFeedback (content out : String) : String :=
  "Shell output from `" ++ content ++ "`:\n```\n" ++ pyTake out 2000 ++ "\n```\nAnalyze and continue."

/-- Feedback for a non-error mcp result. -/
def mcpFeedback (content result : String) : String :=
  "MCP data from " ++ content ++ ":\n" ++ pyTake result 2000 ++ "\nUse this to continue the task."

/-- `_execute_step` from cmnd/agent_mode.py.  Returns the mutated step, the
boolean the function returns, and the context message fed back to the host
assistant, if any.  The source structure: hook fire (cancel ⇒ skipped, True);
then a try block dispatching on `step.action`; any exception ⇒ status
"failed", result `str(e)[:300]`, False; otherwise status "done", True. -/
def execute_step (env : ExecEnv) (step : AgentStep) : AgentStep × Bool × Option String :=
  match env.hookCancel step with
  | some reason =>
    ({ step with status := "skipped", result := "Skipped by hook: " ++ reason }, true, none)
  | none =>
    if step.action = "message" then
      match env.message step with
      | .error e => ({ step with status := "failed", result := pyTake e 300 }, false, none)
      | .ok _ =>
        ({ step with status := "done", result := "Message sent to LLM" }, true, none)
    else if step.action = "skill" then
      match env.skill step with
      | .error e => ({ step with status := "failed", result := pyTake e 300 }, false, none)
      | .ok success =>
        if success then
          ({ step with status := "done", result := "Skill completed" }, true, none)
        else
          ({ step with status := "failed", result := "Skill failed" }, false, none)
    else if step.action = "shell" then
      match env.shell step with
      | .error e => ({ step with status := "failed", result := pyTake e 300 }, false, none)
      | .ok (rc, out) =>
        if rc ≠ 0 then
          -- the raised RuntimeError is caught by the step's own handler
          ({ step with status := "failed", result := shellErrMsg rc out }, false, none)
        else
          ({ step with status := "done", result := pyTake out 500 }, true,
           if pyStrip out ≠ "" then some (shellFeedback step.content out) else none)
    else if step.action = "mcp" then
      match splitSlashOnce step.content with
      | some _ =>
        match env.mcp step with
        | .error e => ({ step with status := "failed", result := pyTake e 300 }, false, none)
        | .ok result =>
          ({ step with status := "done", result := pyTake result 500 }, true,
           if result ≠ "" ∧ ¬ containsErr result then
             some (mcpFeedback step.content result)
           else none)
      | none =>
        ({ step with
            status := "done"
            result := "Invalid MCP step format (use " ++ squote ++ "server/tool" ++ squote ++ ")" },
         true, none)
    else
      ({ step with status := "done" }, true, none)

-- ─────────────────────────────────────────────
-- cmnd/agent_mode.py — run_agent
-- ─────────────────────────────────────────────

/-- The interactive operator's raw answers to `run_agent`'s three `input()`
prompts (plan approval, per-step continue gate, step-failed gate), keyed by
the prompting step's index where applicable.  `run_agent` applies
`.strip().lower()` itself. -/
structure Operator where
  approve : String
  gate : Int → String
  failGate : Int → String

/-- Result of the `for step in session.steps` loop of `run_agent`: the
mutated step list, the session status it leaves behind (`"done"` from the
loop's `else:` clause when no `break` ran), the final `current_step`, and the
number of `_execute_step` invocations. -/
structure LoopResult where
  steps : List AgentStep
  status : String
  current : Int
  executed : Nat
deriving Repr

/-- The execution loop of `run_agent` over the remaining steps.  Per
iteration: set `current_step`; unless auto-approved (and skipping the gate for
the first step), ask the operator — `n`/`no`/`abort` breaks with status
"cancelled", `skip` marks the step skipped and continues; otherwise run
`_execute_step`; a failure of a non-shell step asks the operator and breaks
with status "failed" unless answered `y`/`yes`.  A failing *shell* step takes
neither branch and the loop simply continues. -/
def agent_loop (env : ExecEnv) (op : Operator) (auto_approve : Bool) :
    List AgentStep → Int → LoopResult
  | [], cur => ⟨[], "done", cur, 0⟩
  | step :: rest, _ =>
    let cur := step.index
    let gateResp := (stripLower (op.gate step.index))
    if auto_approve = false ∧ step.index > 1 ∧
        (gateResp = "n" ∨ gateResp = "no" ∨ gateResp = "abort") then
      ⟨step :: rest, "cancelled", cur, 0⟩
    else if auto_approve = false ∧ step.index > 1 ∧ gateResp = "skip" then
      let r := agent_loop env op auto_approve rest cur
      ⟨{ step with status := "skipped" } :: r.steps, r.status, r.current, r.executed⟩
    else
      let e := execute_step env step
      let step' := e.1
      let success := e.2.1
      if success = false ∧ step.action ≠ "shell" then
        let failResp := (stripLower (op.failGate step.index))
        if failResp = "y" ∨ failResp = "yes" then
          let r := agent_loop env op auto_approve rest cur
          ⟨step' :: r.steps, r.status, r.current, r.executed + 1⟩
        else
          ⟨step' :: rest, "failed", cur, 1⟩
      else
        let r := agent_loop env op auto_approve rest cur
        ⟨step' :: r.steps, r.status, r.current, r.executed + 1⟩

/-- The process-wide `_active_session` slot of cmnd/agent_mode.py. -/
structure ProcState where
  active_session : Option AgentSession := none
deriving Repr

/-- `run_agent` from cmnd/agent_mode.py.  `planResult` stands for what
`plan_goal` got out of the planner (`none` when planning failed and
`plan_goal` returned `None`).  Returns the boolean `run_agent` returns, the
final process state, and the session object (when one was created).

Source structure: planning failure prints and returns `False` (slot
untouched); otherwise the session is stored in `_active_session`; without
auto-approval an operator answer of `n`/`no` to the plan prompt sets status
"cancelled" and returns `False` — the source returns *here without clearing
`_active_session`*; otherwise status "running", the step loop runs, the
summary and audit log are emitted (best-effort, no state effect), the slot is
cleared, and `session.status == "done"` is returned. -/
def run_agent (goal : String) (auto_approve : Bool) (planResult : Option PlanData)
    (op : Operator) (env : ExecEnv) (st : ProcState) :
    Bool × ProcState × Option AgentSession :=
  match planResult with
  | none => (false, st, none)
  | some data =>
    let session := plan_goal goal data
    let st1 : ProcState := { active_session := some session }
    let approveResp := stripLower op.approve
    if auto_approve = false ∧ (approveResp = "n" ∨ approveResp = "no") then
      let session := { session with status := "cancelled" }
      (false, { active_session := some session }, some session)
    else
      let session := { session with status := "running" }
      let r := agent_loop env op auto_approve session.steps session.current_step
      let session := { session with
                        steps := r.steps
                        status := r.status
                        current_step := r.current }
      -- `_active_session = None` before the final return
      (session.status = "done", { st1 with active_session := none }, some session)

-- ─────────────────────────────────────────────
-- cmnd/mcp_client.py — MCPSession._request header validation
-- ─────────────────────────────────────────────

/-- `all(c.isalnum() or c in "-_" for c in self.session_id)` — the
identifier-safe character test of `MCPSession._request` (ASCII fragment of
Python's `str.isalnum`). -/
def sessionIdSafe (sid : String) : Bool :=
  sid.data.all fun c => c.isAlphanum || c = '-' || c = '_'

/-- The header-building prefix of `MCPSession._request` from cmnd/mcp_client.py:
base headers always; when a previously captured session id is present
(Python truthiness: a `None` or empty id attaches nothing), it is validated
against the identifier-safe set and a `ValueError` is raised — before any
request is sent — if it fails; otherwise it is attached as `mcp-session-id`. -/
def request_headers (session_id : Option String) :
    Except String (List (String × String)) :=
  let base := [("Content-Type", "application/json"),
               ("Accept", "application/json, text/event-stream")]
  match session_id with
  | none => .ok base
  | some sid =>
    if sid = "" then .ok base
    else if ¬ sessionIdSafe sid then
      .error "Invalid session ID characters detected"
    else .ok (base ++ [("mcp-session-id", sid)])

-- ─────────────────────────────────────────────
-- cmnd/mcp_server.py — session registry and request handling
-- ─────────────────────────────────────────────

/-- One `_sessions` entry: `{"created": time.time(), "calls": 0}` (wall-clock
`created` omitted). -/
structure SessionRec where
  calls : Nat := 0
deriving DecidableEq, Repr

/-- The module-level `_sessions` dict, as an association list keyed by the
session identifier. -/
structure ServerState where
  sessions : List (String × SessionRec) := []
deriving DecidableEq, Repr

/-- `_valid_session(sid)`: `sid in _sessions` — key membership in the dict. -/
def valid_session (st : ServerState) (sid : String) : Bool :=
  st.sessions.any fun p => p.1 = sid

/-- `_new_session()` with the fresh uuid4 value passed in: dict assignment
`_sessions[sid] = {...}` (replacing any same-keyed entry, as a dict does). -/
def new_session (st : ServerState) (sid : String) : ServerState :=
  { sessions := st.sessions.filter (fun p => p.1 ≠ sid) ++ [(sid, {})] }

/-- `_sessions[session_id]["calls"] += 1` on a dispatched request. -/
def bump_calls (st : ServerState) (sid : String) : ServerState :=
  { sessions := st.sessions.map fun p =>
      if p.1 = sid then (p.1, { calls := p.2.calls + 1 }) else p }

/-- The slice of a tool handler's returned dict that the `isError`
computation inspects: whether the dict contains an `"error"` key, and the
value of its `"success"` key when present (every handler in cmnd/mcp_server.py
stores a Python `bool` there, or omits the key). -/
structure ToolResult where
  hasError : Bool
  success : Option Bool := none
deriving DecidableEq, Repr

/-- The `try/except` around `TOOLS[tool_name]["fn"](tool_args)` in `do_POST`:
a raised exception becomes `{"error": str(e)}` — which has an `"error"` key
and no `"success"` key. -/
def dispatch_tool (invocation : Except String ToolResult) : ToolResult :=
  match invocation with
  | .error _ => { hasError := true, success := none }
  | .ok r => r

/-- `"error" in result and not result.get("success", True)` — the `isError`
flag placed in the `tools/call` response. -/
def isError_flag (r : ToolResult) : Bool :=
  r.hasError && !(r.success.getD true)

/-- The server's response to one POST, abstracted to the fields the claims
observe. -/
inductive RpcOut where
  | initResult (sid : String)
  | toolsList
  | callResult (result : ToolResult) (isError : Bool)
  | rpcError (code : Int) (msg : String)
deriving DecidableEq, Repr

/-- `_MCPHandler.do_POST` from cmnd/mcp_server.py for requests on `/mcp`.
`toolEval name` is the outcome of invoking the registered tool handler of
that name on the request's arguments (`none` when `tool_name not in TOOLS`);
`freshSid` is the uuid4 the handler would mint.  `sessionHeader` is
`self.headers.get("mcp-session-id", "")` — the empty string when absent.

Source order: `initialize` mints a session and responds (no session check);
every other method is rejected with error code -32000 when the header is
missing or unknown; a dispatched request first bumps the session's call
counter, then handles `tools/list`, `tools/call` (unknown tool → -32601;
handler exception → error-shaped result; respond with content plus the
`isError` flag) or falls through to -32601 method-not-found. -/
def do_POST (toolEval : String → Option (Except String ToolResult))
    (freshSid : String) (st : ServerState) (method : String)
    (sessionHeader : String) (toolName : String) : ServerState × RpcOut :=
  if method = "initialize" then
    (new_session st freshSid, .initResult freshSid)
  else if sessionHeader = "" ∨ ¬ valid_session st sessionHeader then
    (st, .rpcError (-32000) "Invalid or missing session ID")
  else
    let st := bump_calls st sessionHeader
    if method = "tools/list" then
      (st, .toolsList)
    else if method = "tools/call" then
      match toolEval toolName with
      | none => (st, .rpcError (-32601) ("Unknown tool: " ++ toolName))
      | some invocation =>
        let result := dispatch_tool invocation
        (st, .callResult result (isError_flag result))
    else
      (st, .rpcError (-32601) ("Method not found: " ++ method))

/-- `_MCPHandler.do_DELETE` on `/mcp`: `if sid in _sessions: del _sessions[sid]`. -/
def do_DELETE (st : ServerState) (sid : String) : ServerState :=
  { sessions := st.sessions.filter (fun p => p.1 ≠ sid) }

/-- One request hitting the server, for reasoning about session provenance
across a whole trace. -/
inductive ServerOp where
  | post (freshSid : String) (method : String) (sessionHeader : String) (toolName : String)
  | del (sid : String)

/-- State transition of one request (response discarded). -/
def applyOp (toolEval : String → Option (Except String ToolResult))
    (st : ServerState) : ServerOp → ServerState
  | .post freshSid method sessionHeader toolName =>
    (do_POST toolEval freshSid st method sessionHeader toolName).1
  | .del sid => do_DELETE st sid

/-- The server state after a trace of requests, starting from the empty
`_sessions` map. -/
def applyOps (toolEval : String → Option (Except String ToolResult))
    (ops : List ServerOp) : ServerState :=
  ops.foldl (applyOp toolEval) {}

-- ─────────────────────────────────────────────
-- Concrete fixtures used by witnesses and counterexamples
-- ─────────────────────────────────────────────

/-- A benign environment: no hook cancellation, every collaborator succeeds,
except that every shell command exits with code 1 and output "boom", and
every mcp call returns an error string. -/
def envFail : ExecEnv :=
  { hookCancel := fun _ => none
    message := fun _ => .ok ()
    skill := fun _ => .ok true
    shell := fun _ => .ok (1, "boom")
    mcp := fun _ => .ok "Error from captains-log: boom" }

/-- An operator who hits enter at every prompt (empty responses). -/
def opEnter : Operator := { approve := "", gate := fun _ => "", failGate := fun _ => "" }

/-- A planner response with one shell step followed by one message step. -/
def planShellMsg : PlanData :=
  { steps := [ { index := some 1, description := some "verify"
                 action := some "shell", content := some "pytest" },
               { index := some 2, description := some "edit"
                 action := some "message", content := some "continue" } ] }

/-- A context for `PRE_MESSAGE` firings. -/
def ctxPre : HookContext := { event := .PRE_MESSAGE }

/-- A priority-10 handler that returns the cancel sentinel `False`. -/
def regGuard : HookRegistration :=
  { event := .PRE_MESSAGE, fn := fun c => .returned (some false) c
    priority := 10, name := "guard", source := "builtin" }

/-- A priority-90 handler that returns `None` (no opinion). -/
def regLogger : HookRegistration :=
  { event := .PRE_MESSAGE, fn := fun c => .returned none c
    priority := 90, name := "logger", source := "builtin" }

/-- A handler that raises without mutating the context. -/
def regBoom : HookRegistration :=
  { event := .PRE_MESSAGE, fn := fun c => .raised c
    priority := 50, name := "boom", source := "builtin" }

-- ─────────────────────────────────────────────
-- Supporting lemmas: dispatcher
-- ─────────────────────────────────────────────

/-- Splitting the dispatch loop at a list append: if the first segment broke
(cancellation), the second never runs; otherwise the loop continues into the
second segment from the context the first produced. -/
theorem fireSteps_append (l₁ l₂ : List HookRegistration) (event : HookEvent)
    (ctx : HookContext) :
    fireSteps (l₁ ++ l₂) event ctx =
      if (fireSteps l₁ event ctx).2.2 = true then
        fireSteps l₁ event ctx
      else
        ((fireSteps l₂ event (fireSteps l₁ event ctx).1).1,
         (fireSteps l₁ event ctx).2.1 ++ (fireSteps l₂ event (fireSteps l₁ event ctx).1).2.1,
         (fireSteps l₂ event (fireSteps l₁ event ctx).1).2.2) := by
  induction l₁ generalizing ctx with
  | nil => simp [fireSteps]
  | cons reg rest ih =>
    by_cases hrel : reg.event = event ∧ reg.enabled = true
    · cases hfn : reg.fn ctx with
      | raised ctx' =>
        simp only [List.cons_append, fireSteps, if_pos hrel, hfn, List.append_eq]
        rw [ih ctx']
        by_cases hb : (fireSteps rest event ctx').2.2 = true
        · simp [hb]
        · simp [hb]
      | returned v ctx' =>
        by_cases hv : v = some false
        · simp [List.cons_append, fireSteps, if_pos hrel, hfn, hv]
        · simp only [List.cons_append, fireSteps, if_pos hrel, hfn, if_neg hv, List.append_eq]
          rw [ih ctx']
          by_cases hb : (fireSteps rest event ctx').2.2 = true
          · simp [hb]
          · simp [hb]
    · simp only [List.cons_append, fireSteps, if_neg hrel, List.append_eq]
      exact ih ctx

/-- Membership in a stable insertion. -/
theorem mem_insertByPriority (r a : HookRegistration) (l : List HookRegistration) :
    a ∈ insertByPriority r l ↔ a = r ∨ a ∈ l := by
  induction l with
  | nil => simp [insertByPriority]
  | cons x xs ih =>
    by_cases hc : x.priority ≤ r.priority
    · simp only [insertByPriority, if_pos hc, List.mem_cons, ih]
      tauto
    · simp [insertByPriority, if_neg hc, List.mem_cons]

/-- Stable insertion preserves sortedness by priority. -/
theorem pairwise_insertByPriority (r : HookRegistration) (l : List HookRegistration)
    (h : l.Pairwise fun a b => a.priority ≤ b.priority) :
    (insertByPriority r l).Pairwise fun a b => a.priority ≤ b.priority := by
  induction l with
  | nil => simp [insertByPriority]
  | cons x xs ih =>
    obtain ⟨hx, hxs⟩ := List.pairwise_cons.mp h
    by_cases hc : x.priority ≤ r.priority
    · rw [insertByPriority, if_pos hc]
      refine List.pairwise_cons.mpr ⟨?_, ih hxs⟩
      intro b hb
      rcases (mem_insertByPriority r b xs).mp hb with hb | hb
      · subst hb; exact hc
      · exact hx b hb
    · rw [insertByPriority, if_neg hc]
      refine List.pairwise_cons.mpr ⟨?_, h⟩
      intro b hb
      rcases List.mem_cons.mp hb with hb | hb
      · subst hb; exact le_of_lt (lt_of_not_le hc)
      · exact le_trans (le_of_lt (lt_of_not_le hc)) (hx b hb)

/-- Inserting an element of a different priority leaves a priority-slice
unchanged. -/
theorem filter_insert_ne (r : HookRegistration) (l : List HookRegistration) (p : Int)
    (hp : r.priority ≠ p) :
    (insertByPriority r l).filter (fun x => decide (x.priority = p)) =
      l.filter (fun x => decide (x.priority = p)) := by
  induction l with
  | nil => simp [insertByPriority, hp]
  | cons x xs ih =>
    by_cases hc : x.priority ≤ r.priority
    · rw [insertByPriority, if_pos hc, List.filter_cons, List.filter_cons, ih]
    · rw [insertByPriority, if_neg hc, List.filter_cons]
      simp [hp]

/-- Inserting into a sorted list appends the new element at the end of its
priority-slice (stability). -/
theorem filter_insert_eq (r : HookRegistration) (l : List HookRegistration) (p : Int)
    (hl : l.Pairwise fun a b => a.priority ≤ b.priority) (hp : r.priority = p) :
    (insertByPriority r l).filter (fun x => decide (x.priority = p)) =
      l.filter (fun x => decide (x.priority = p)) ++ [r] := by
  induction l with
  | nil => simp [insertByPriority, hp]
  | cons x xs ih =>
    obtain ⟨hx, hxs⟩ := List.pairwise_cons.mp hl
    by_cases hc : x.priority ≤ r.priority
    · rw [insertByPriority, if_pos hc, List.filter_cons, List.filter_cons, ih hxs]
      by_cases hxp : x.priority = p <;> simp [hxp]
    · have hlt : r.priority < x.priority := lt_of_not_le hc
      have hnil : (x :: xs).filter (fun y => decide (y.priority = p)) = [] := by
        apply List.filter_eq_nil_iff.mpr
        intro a ha
        have hle : x.priority ≤ a.priority := by
          rcases List.mem_cons.mp ha with rfl | ha
          · exact le_refl _
          · exact hx a ha
        have : p < a.priority := lt_of_lt_of_le (hp ▸ hlt) hle
        simp only [decide_eq_true_eq]
        omega
      rw [insertByPriority, if_neg hc, List.filter_cons, hnil]
      simp [hp]

/-- Inserting after everything of lower-or-equal priority is a plain append. -/
theorem insertByPriority_of_le (r : HookRegistration) (l : List HookRegistration)
    (h : ∀ a ∈ l, a.priority ≤ r.priority) :
    insertByPriority r l = l ++ [r] := by
  induction l with
  | nil => rfl
  | cons x xs ih =>
    rw [insertByPriority, if_pos (h x (List.mem_cons_self x xs)),
        ih fun a ha => h a (List.mem_cons_of_mem x ha)]
    rfl

/-- The stable insertion sort is the identity on sorted input. -/
theorem foldl_insert_of_sorted (l : List HookRegistration) :
    ∀ acc : List HookRegistration,
      ((acc ++ l).Pairwise fun a b => a.priority ≤ b.priority) →
      l.foldl (fun a r => insertByPriority r a) acc = acc ++ l := by
  induction l with
  | nil => intro acc _; simp
  | cons b l' ih =>
    intro acc h
    have hins : insertByPriority b acc = acc ++ [b] := by
      apply insertByPriority_of_le
      intro a ha
      exact (List.pairwise_append.mp h).2.2 a ha b (List.mem_cons_self b l')
    rw [List.foldl_cons, hins, ih (acc ++ [b]) (by simpa [List.append_assoc] using h)]
    simp

/-- `sortByPriority` is the identity on sorted input. -/
theorem sortByPriority_of_sorted (l : List HookRegistration)
    (h : l.Pairwise fun a b => a.priority ≤ b.priority) :
    sortByPriority l = l :=
  foldl_insert_of_sorted l [] (by simpa using h)

/-- On the sorted registry the source's append-then-stable-sort `register`
equals a stable insertion. -/
theorem register_eq_insert (acc : List HookRegistration) (r : HookRegistration)
    (h : acc.Pairwise fun a b => a.priority ≤ b.priority) :
    register acc r = insertByPriority r acc := by
  have h2 : sortByPriority (acc ++ [r]) = insertByPriority r (sortByPriority acc) := by
    unfold sortByPriority
    rw [List.foldl_append]
    rfl
  rw [register, h2, sortByPriority_of_sorted acc h]

/-- Core registry invariant: any sequence of `register` calls keeps the
registry sorted by priority, and every priority-slice keeps registration
order (stability). -/
theorem foldl_register_props (regs : List HookRegistration) :
    ∀ acc : List HookRegistration,
      (acc.Pairwise fun a b => a.priority ≤ b.priority) →
      ((regs.foldl register acc).Pairwise fun a b => a.priority ≤ b.priority) ∧
      ∀ p : Int, (regs.foldl register acc).filter (fun x => decide (x.priority = p)) =
        acc.filter (fun x => decide (x.priority = p)) ++
        regs.filter (fun x => decide (x.priority = p)) := by
  induction regs with
  | nil => intro acc h; exact ⟨h, fun p => by simp⟩
  | cons r regs' ih =>
    intro acc h
    rw [List.foldl_cons, register_eq_insert acc r h]
    obtain ⟨hp, hf⟩ := ih (insertByPriority r acc) (pairwise_insertByPriority r acc h)
    refine ⟨hp, fun p => ?_⟩
    rw [hf p, List.filter_cons]
    by_cases hrp : r.priority = p
    · rw [filter_insert_eq r acc p h hrp]
      simp [hrp]
    · rw [filter_insert_ne r acc p hrp]
      simp [hrp]

/-- The invoked-handler trace of one firing is a prefix of the registry's
relevant (same event, enabled) registrations, in registry order. -/
theorem fireSteps_trace_prefix (regs : List HookRegistration) (event : HookEvent) :
    ∀ ctx : HookContext,
      (fireSteps regs event ctx).2.1 <+: regs.filter (relevantFor event) := by
  induction regs with
  | nil => intro ctx; simp [fireSteps]
  | cons reg rest ih =>
    intro ctx
    by_cases hrel : reg.event = event ∧ reg.enabled = true
    · have hrelb : relevantFor event reg = true := by simp [relevantFor, hrel]
      rw [List.filter_cons]
      simp only [hrelb, if_true]
      cases hfn : reg.fn ctx with
      | raised ctx' =>
        simp only [fireSteps, if_pos hrel, hfn]
        obtain ⟨u, hu⟩ := ih ctx'
        exact ⟨u, by simp [hu]⟩
      | returned v ctx' =>
        by_cases hv : v = some false
        · simp only [fireSteps, if_pos hrel, hfn, if_pos hv]
          exact ⟨rest.filter (relevantFor event), by simp⟩
        · simp only [fireSteps, if_pos hrel, hfn, if_neg hv]
          obtain ⟨u, hu⟩ := ih ctx'
          exact ⟨u, by simp [hu]⟩
    · have hrelb : relevantFor event reg = false := by
        simp only [relevantFor, decide_eq_false_iff_not]
        exact hrel
      simp only [fireSteps, if_neg hrel, List.filter_cons, hrelb]
      simpa using ih ctx

-- ─────────────────────────────────────────────
-- Supporting lemmas: agent loop
-- ─────────────────────────────────────────────

/-- The execution loop calls `_execute_step` at most once per planned step. -/
theorem agent_loop_executed_le (env : ExecEnv) (op : Operator) (auto : Bool) :
    ∀ (steps : List AgentStep) (cur : Int),
      (agent_loop env op auto steps cur).executed ≤ steps.length := by
  intro steps
  induction steps with
  | nil => intro cur; simp [agent_loop]
  | cons step rest ih =>
    intro cur
    simp only [agent_loop, List.length_cons]
    split
    · exact Nat.zero_le _
    · split
      · exact Nat.le_succ_of_le (ih _)
      · split
        · split
          · exact Nat.succ_le_succ (ih _)
          · exact Nat.succ_le_succ (Nat.zero_le _)
        · exact Nat.succ_le_succ (ih _)

-- ─────────────────────────────────────────────
-- C1
-- ─────────────────────────────────────────────

/-- C1: for every planner response whose steps list has more than MAX_STEPS
(12) entries, the session built by `plan_goal` contains exactly MAX_STEPS
steps, in the planner's original order (the mapped prefix of the response),
and execution runs `_execute_step` at most MAX_STEPS times. -/
theorem plan_goal_step_cap (goal : String) (data : PlanData)
    (h : MAX_STEPS < data.steps.length) :
    (plan_goal goal data).steps.length = MAX_STEPS ∧
    (plan_goal goal data).steps = (data.steps.take MAX_STEPS).map mkAgentStep ∧
    ∀ (env : ExecEnv) (op : Operator) (auto : Bool) (cur : Int),
      (agent_loop env op auto (plan_goal goal data).steps cur).executed ≤ MAX_STEPS := by
  refine ⟨?_, rfl, ?_⟩
  · simp [plan_goal, List.length_take, Nat.min_eq_left (Nat.le_of_lt h)]
  · intro env op auto cur
    calc (agent_loop env op auto (plan_goal goal data).steps cur).executed
        ≤ (plan_goal goal data).steps.length := agent_loop_executed_le env op auto _ cur
      _ ≤ MAX_STEPS := by
          simp [plan_goal, List.length_take]

/-- C1 witness: a 13-step planner response is planned to exactly 12 steps. -/
theorem plan_goal_step_cap_witness :
    (plan_goal "g" { steps := List.replicate 13 ({} : RawStep) }).steps.length = MAX_STEPS :=
  (plan_goal_step_cap "g" { steps := List.replicate 13 ({} : RawStep) } (by decide)).1

-- ─────────────────────────────────────────────
-- C5
-- ─────────────────────────────────────────────

/-- C5: if a captured session identifier contains any character outside the
identifier-safe set (alphanumeric, `-`, `_`), the client's `_request` raises
(here: returns the `ValueError` message) before any request is sent, instead
of attaching the raw value as a header. -/
theorem request_rejects_unsafe_session_id (sid : String)
    (h : ∃ c ∈ sid.data, ¬ (c.isAlphanum = true ∨ c = '-' ∨ c = '_')) :
    request_headers (some sid) = .error "Invalid session ID characters detected" := by
  obtain ⟨c, hc, hbad⟩ := h
  have hsafe : sessionIdSafe sid = false := by
    apply Bool.eq_false_iff.mpr
    intro hall
    have hcall := List.all_eq_true.mp hall c hc
    apply hbad
    simpa [Bool.or_eq_true, decide_eq_true_eq, or_assoc] using hcall
  have hne : sid ≠ "" := by
    intro he
    subst he
    simp at hc
  simp [request_headers, hne, hsafe]

/-- C5 witness: a session identifier containing a newline is refused. -/
theorem request_rejects_unsafe_session_id_witness :
    request_headers (some "abc\ndef") = .error "Invalid session ID characters detected" :=
  request_rejects_unsafe_session_id "abc\ndef" (by decide)

-- ─────────────────────────────────────────────
-- C6
-- ─────────────────────────────────────────────

/-- C6: if, during a firing, an enabled handler for the event returns the
cancel sentinel (`False`, as opposed to returning nothing), the dispatch loop
stops — no registration after it in the registry's (priority) order runs for
that firing — and the returned context has `cancelled = true` with the
handler's name contained in the cancel reason. -/
theorem fire_cancel_short_circuit (pre post : List HookRegistration)
    (reg : HookRegistration) (event : HookEvent) (ctx ctx' : HookContext)
    (hpre : (fireSteps pre event ctx).2.2 = false)
    (hev : reg.event = event) (hen : reg.enabled = true)
    (hfn : reg.fn (fireSteps pre event ctx).1 = .returned (some false) ctx') :
    fireSteps (pre ++ reg :: post) event ctx =
      ({ ctx' with cancelled := true, cancel_reason := some (cancelMsg reg.name) },
       (fireSteps pre event ctx).2.1 ++ [reg], true) ∧
    ∃ s t, cancelMsg reg.name = s ++ reg.name ++ t := by
  constructor
  · rw [fireSteps_append]
    simp only [hpre, Bool.false_eq_true, if_false]
    have hcons : fireSteps (reg :: post) event (fireSteps pre event ctx).1 =
        ({ ctx' with cancelled := true, cancel_reason := some (cancelMsg reg.name) },
         [reg], true) := by
      simp [fireSteps, hev, hen, hfn]
    rw [hcons]
  · exact ⟨"Cancelled by hook " ++ squote, squote, rfl⟩

/-- C6 witness: with a cancelling priority-10 handler registered before a
priority-90 logger, firing cancels after the first handler, the logger never
runs, and the reason names the cancelling hook. -/
theorem fire_cancel_short_circuit_witness :
    fireSteps [regGuard, regLogger] .PRE_MESSAGE ctxPre =
      ({ ctxPre with cancelled := true, cancel_reason := some (cancelMsg "guard") },
       [regGuard], true) := by
  have h := fire_cancel_short_circuit [] [regLogger] regGuard .PRE_MESSAGE ctxPre ctxPre
    rfl rfl rfl rfl
  exact h.1.trans (by rfl)

-- ─────────────────────────────────────────────
-- C7
-- ─────────────────────────────────────────────

/-- C7: for any sequence of registrations, the registry built by `register`
is sorted by ascending priority; every priority-slice preserves registration
order (ties break by registration order); and every firing invokes a prefix
of the registry's relevant (same event, enabled) registrations in that order
— so a priority-10 handler runs before a priority-90 one regardless of
registration order, and repeated firings (whose traces are prefixes of the
same fixed list) use the same order. -/
theorem registry_priority_order (regs : List HookRegistration) :
    ((buildRegistry regs).Pairwise fun a b => a.priority ≤ b.priority) ∧
    (∀ p : Int, (buildRegistry regs).filter (fun r => decide (r.priority = p)) =
      regs.filter (fun r => decide (r.priority = p))) ∧
    ∀ (event : HookEvent) (ctx : HookContext),
      (fireSteps (buildRegistry regs) event ctx).2.1 <+:
        (buildRegistry regs).filter (relevantFor event) := by
  obtain ⟨h1, h2⟩ := foldl_register_props regs [] List.Pairwise.nil
  refine ⟨h1, fun p => ?_, fun event ctx => fireSteps_trace_prefix _ event ctx⟩
  simpa using h2 p

-- ─────────────────────────────────────────────
-- C8
-- ─────────────────────────────────────────────

/-- C8: a handler that raises does not prevent subsequent handlers from
running (the loop continues into the rest of the registry from the context
the handler left), does not set the context's cancelled flag (running just
up to and including the raising handler leaves exactly the handler's own
context, unbroken), and — `fireSteps`/`fire` being total functions — the
exception never propagates to the caller of `fire`. -/
theorem fire_handler_isolation (pre post : List HookRegistration)
    (reg : HookRegistration) (event : HookEvent) (ctx ctx' : HookContext)
    (hpre : (fireSteps pre event ctx).2.2 = false)
    (hev : reg.event = event) (hen : reg.enabled = true)
    (hfn : reg.fn (fireSteps pre event ctx).1 = .raised ctx') :
    fireSteps (pre ++ reg :: post) event ctx =
      ((fireSteps post event ctx').1,
       (fireSteps pre event ctx).2.1 ++ reg :: (fireSteps post event ctx').2.1,
       (fireSteps post event ctx').2.2) ∧
    fireSteps (pre ++ [reg]) event ctx =
      (ctx', (fireSteps pre event ctx).2.1 ++ [reg], false) := by
  constructor
  · rw [fireSteps_append]
    simp only [hpre, Bool.false_eq_true, if_false]
    have hcons : fireSteps (reg :: post) event (fireSteps pre event ctx).1 =
        ((fireSteps post event ctx').1,
         reg :: (fireSteps post event ctx').2.1,
         (fireSteps post event ctx').2.2) := by
      simp [fireSteps, hev, hen, hfn]
    rw [hcons]
  · rw [fireSteps_append]
    simp only [hpre, Bool.false_eq_true, if_false]
    have hcons : fireSteps [reg] event (fireSteps pre event ctx).1 =
        (ctx', [reg], false) := by
      simp [fireSteps, hev, hen, hfn]
    rw [hcons]

/-- C8 witness: a raising handler followed by a logger — the logger still
runs, the firing is not cancelled, and `fireSteps` returns normally. -/
theorem fire_handler_isolation_witness :
    fireSteps [regBoom, regLogger] .PRE_MESSAGE ctxPre =
      (ctxPre, [regBoom, regLogger], false) := by
  have h := fire_handler_isolation [] [regLogger] regBoom .PRE_MESSAGE ctxPre ctxPre
    rfl rfl rfl rfl
  exact h.1.trans (by rfl)

-- ─────────────────────────────────────────────
-- C10
-- ─────────────────────────────────────────────

/-- C10: a tool handler that raises, or that returns a dict with an `error`
key but no explicit `success` field, still yields a normal `tools/call`
response with `isError = false`; `isError` is `true` exactly when the result
has an `error` key together with an explicit `success` field that is false. -/
theorem tools_call_isError_flag
    (toolEval : String → Option (Except String ToolResult))
    (st : ServerState) (freshSid sid name e : String)
    (hsid : sid ≠ "") (hvalid : valid_session st sid = true)
    (htool : toolEval name = some (.error e)) :
    do_POST toolEval freshSid st "tools/call" sid name =
      (bump_calls st sid, .callResult { hasError := true, success := none } false) ∧
    (∀ r : ToolResult, r.hasError = true → r.success = none → isError_flag r = false) ∧
    (∀ r : ToolResult, isError_flag r = true ↔ r.hasError = true ∧ r.success = some false) := by
  refine ⟨?_, ?_, ?_⟩
  · simp [do_POST, hsid, hvalid, htool, dispatch_tool, isError_flag]
  · intro r h1 h2
    simp [isError_flag, h1, h2]
  · intro r
    constructor
    · intro hflag
      rcases r with ⟨he, hs⟩
      cases he with
      | false => simp [isError_flag] at hflag
      | true =>
        cases hs with
        | none => simp [isError_flag] at hflag
        | some b =>
          cases b with
          | false => exact ⟨rfl, rfl⟩
          | true => simp [isError_flag] at hflag
    · rintro ⟨h1, h2⟩
      simp [isError_flag, h1, h2]

-- ─────────────────────────────────────────────
-- C2
-- ─────────────────────────────────────────────

/-- C2 counterexample: with the operator pressing enter at every prompt
(default interactive policy) and a plan of one shell step (whose command
exits 1) followed by one message step, the shell step is marked "failed",
yet the remaining step still runs to "done" and the session terminates with
status "done" — the plan is not aborted and the session does not fail. -/
theorem shell_failure_not_fatal_counterexample :
    ((run_agent "g" false (some planShellMsg) opEnter envFail {}).2.2.map
        fun s => (s.status, s.steps.map AgentStep.status))
      = some ("done", ["failed", "done"]) ∧
    (run_agent "g" false (some planShellMsg) opEnter envFail {}).1 = true := by
  constructor <;> rfl

/-- C2 amended: a shell step whose command exits non-zero is marked "failed"
with the RuntimeError text as its result and nothing is fed back to the host
assistant; but `run_agent`'s loop then continues with the remaining steps
without consulting the operator's failure gate (unlike other step kinds), so
the session's final status is whatever the rest of the loop produces. -/
theorem shell_failure_continues (env : ExecEnv) (op : Operator) (auto : Bool)
    (step : AgentStep) (rest : List AgentStep) (cur rc : Int) (out : String)
    (hact : step.action = "shell")
    (hhook : env.hookCancel step = none)
    (hsh : env.shell step = .ok (rc, out))
    (hrc : rc ≠ 0)
    (hgate : auto = true ∨ ¬ step.index > 1 ∨
      (stripLower (op.gate step.index) ∉ (["n", "no", "abort", "skip"] : List String))) :
    execute_step env step =
      ({ step with status := "failed", result := shellErrMsg rc out }, false, none) ∧
    agent_loop env op auto (step :: rest) cur =
      { steps := { step with status := "failed", result := shellErrMsg rc out } ::
                 (agent_loop env op auto rest step.index).steps
        status := (agent_loop env op auto rest step.index).status
        current := (agent_loop env op auto rest step.index).current
        executed := (agent_loop env op auto rest step.index).executed + 1 } := by
  have hexec : execute_step env step =
      ({ step with status := "failed", result := shellErrMsg rc out }, false, none) := by
    simp [execute_step, hhook, hact, hsh, hrc]
  refine ⟨hexec, ?_⟩
  have hnogate₁ : ¬ (auto = false ∧ step.index > 1 ∧
      ((stripLower (op.gate step.index)) = "n" ∨
       (stripLower (op.gate step.index)) = "no" ∨
       (stripLower (op.gate step.index)) = "abort")) := by
    rcases hgate with h | h | h
    · rintro ⟨h1, -, -⟩; rw [h] at h1; exact Bool.noConfusion h1
    · rintro ⟨-, h2, -⟩; exact h h2
    · rintro ⟨-, -, h3⟩
      simp only [List.mem_cons, List.mem_singleton, List.not_mem_nil] at h
      rcases h3 with h3 | h3 | h3 <;> simp [h3] at h
  have hnogate₂ : ¬ (auto = false ∧ step.index > 1 ∧
      (stripLower (op.gate step.index)) = "skip") := by
    rcases hgate with h | h | h
    · rintro ⟨h1, -, -⟩; rw [h] at h1; exact Bool.noConfusion h1
    · rintro ⟨-, h2, -⟩; exact h h2
    · rintro ⟨-, -, h3⟩
      simp only [List.mem_cons, List.mem_singleton, List.not_mem_nil] at h
      simp [h3] at h
  simp [agent_loop, hnogate₁, hnogate₂, hexec, hact]

/-- C2 amended witness: the loop of the counterexample run continues past
the failed shell step into the message step. -/
theorem shell_failure_continues_witness :
    execute_step envFail
        { index := 1, description := "verify", action := "shell", content := "pytest" } =
      ({ index := 1, description := "verify", action := "shell", content := "pytest",
         status := "failed", result := shellErrMsg 1 "boom" }, false, none) :=
  (shell_failure_continues envFail opEnter false
    { index := 1, description := "verify", action := "shell", content := "pytest" }
    [] 0 1 "boom" rfl rfl rfl (by decide) (by right; left; decide)).1

-- ─────────────────────────────────────────────
-- C3
-- ─────────────────────────────────────────────

/-- C3 counterexample: an `mcp` step whose Protocol-Layer call returns a
textual error result is *not* treated as a failure — `_execute_step` marks it
"done" (not "failed") and returns success; only the context feed-back is
suppressed. -/
theorem mcp_error_step_done_counterexample :
    execute_step envFail
        { index := 1, description := "lookup", action := "mcp", content := "captains-log/get" } =
      ({ index := 1, description := "lookup", action := "mcp", content := "captains-log/get",
         status := "done", result := "Error from captains-log: boom" }, true, none) := by
  rfl

/-- C3 amended: for a `tool`/`mcp` step whose call returns a textual result,
only non-empty results not containing "Error" are fed back to the host
assistant as context; an error result is not fed back, but the step is still
marked "done" (not "failed") and counts as a success. -/
theorem mcp_error_not_fed_back (env : ExecEnv) (step : AgentStep)
    (server tool r : String)
    (hact : step.action = "mcp")
    (hhook : env.hookCancel step = none)
    (hsplit : splitSlashOnce step.content = some (server, tool))
    (hm : env.mcp step = .ok r) :
    execute_step env step =
      ({ step with status := "done", result := pyTake r 500 }, true,
       if r ≠ "" ∧ ¬ containsErr r then some (mcpFeedback step.content r) else none) ∧
    (containsErr r = true → (execute_step env step).2.2 = none) := by
  have hexec : execute_step env step =
      ({ step with status := "done", result := pyTake r 500 }, true,
       if r ≠ "" ∧ ¬ containsErr r then some (mcpFeedback step.content r) else none) := by
    simp [execute_step, hhook, hact, hsplit, hm]
  refine ⟨hexec, fun herr => ?_⟩
  rw [hexec]
  simp [herr]

/-- C3 amended witness: the counterexample's error result yields no
feedback message. -/
theorem mcp_error_not_fed_back_witness :
    (execute_step envFail
        { index := 1, description := "lookup", action := "mcp", content := "captains-log/get" }).2.2
      = none :=
  (mcp_error_not_fed_back envFail
    { index := 1, description := "lookup", action := "mcp", content := "captains-log/get" }
    "captains-log" "get" "Error from captains-log: boom"
    rfl rfl rfl rfl).2 (by decide)

-- ─────────────────────────────────────────────
-- C4
-- ─────────────────────────────────────────────

/-- C4 counterexample: when the operator rejects the plan before execution,
the session reaches the terminal status "cancelled" but the process-wide
active-session slot is *not* released — `run_agent` returns with the
cancelled session still stored in `_active_session`. -/
theorem reject_keeps_active_session_counterexample :
    ((run_agent "g" false (some planShellMsg)
        { approve := "n", gate := fun _ => "", failGate := fun _ => "" }
        envFail {}).2.1.active_session.map AgentSession.status) = some "cancelled" := by
  rfl

/-- C4 amended: at most one session occupies the process-wide slot (it is a
single optional), and on the termination paths of `run_agent` that reach the
execution loop the slot is released; but when the operator rejects the plan
before execution, the cancelled session remains in the slot (and a failed
planning attempt leaves the slot untouched). -/
theorem run_agent_slot_release (goal : String) (auto : Bool) (data : PlanData)
    (op : Operator) (env : ExecEnv) (st : ProcState)
    (happrove : auto = true ∨
      (stripLower op.approve ≠ "n" ∧ stripLower op.approve ≠ "no")) :
    (run_agent goal auto (some data) op env st).2.1.active_session = none ∧
    (run_agent goal auto none op env st).2.1 = st := by
  constructor
  · have hrej : ¬ (auto = false ∧
        (stripLower op.approve = "n" ∨ stripLower op.approve = "no")) := by
      rcases happrove with h | ⟨h1, h2⟩
      · rintro ⟨ha, -⟩; rw [h] at ha; exact Bool.noConfusion ha
      · rintro ⟨-, h | h⟩
        · exact h1 h
        · exact h2 h
    simp [run_agent, hrej]
  · rfl

/-- C4 amended witness: an approved auto run releases the slot. -/
theorem run_agent_slot_release_witness :
    (run_agent "g" true (some planShellMsg) opEnter envFail {}).2.1.active_session = none :=
  (run_agent_slot_release "g" true planShellMsg opEnter envFail {} (Or.inl rfl)).1

/-- C10 witness: a raising `rebel_git_status` handler produces a normal
result with `isError = false` on a server holding one valid session. -/
theorem tools_call_isError_flag_witness :
    do_POST (fun n => if n = "rebel_git_status" then some (.error "boom") else none)
        "f" { sessions := [("s1", {})] } "tools/call" "s1" "rebel_git_status" =
      ({ sessions := [("s1", { calls := 1 })] },
       .callResult { hasError := true, success := none } false) := by
  have h := tools_call_isError_flag
    (fun n => if n = "rebel_git_status" then some (.error "boom") else none)
    { sessions := [("s1", {})] } "f" "s1" "rebel_git_status" "boom"
    (by decide) (by decide) (by simp)
  simpa [bump_calls] using h.1

-- ─────────────────────────────────────────────
-- Supporting lemmas: server session registry
-- ─────────────────────────────────────────────

/-- A deleted identifier is no longer a key of the session map. -/
theorem valid_session_delete (st : ServerState) (sid : String) :
    valid_session (do_DELETE st sid) sid = false := by
  simp only [valid_session, do_DELETE, Bool.eq_false_iff, ne_eq]
  intro h
  obtain ⟨p, hp, hps⟩ := List.any_eq_true.mp h
  obtain ⟨_, hne⟩ := List.mem_filter.mp hp
  simp only [decide_eq_true_eq] at hps hne
  exact hne hps

/-- Bumping a call counter does not change the key set. -/
theorem valid_session_bump (st : ServerState) (h sid : String) :
    valid_session (bump_calls st h) sid = valid_session st sid := by
  simp only [valid_session, bump_calls]
  induction st.sessions with
  | nil => rfl
  | cons x xs ih =>
    by_cases hx : x.1 = h <;> simp [hx, ih]

/-- Whichever branch a non-initialize POST takes, the session map is either
unchanged (rejected request) or has one call counter bumped (dispatched
request) — in particular no key is added or removed. -/
theorem do_POST_state_ne (toolEval : String → Option (Except String ToolResult))
    (freshSid : String) (st : ServerState) (method sessionHeader toolName : String)
    (hm : method ≠ "initialize") :
    (do_POST toolEval freshSid st method sessionHeader toolName).1 = st ∨
    (do_POST toolEval freshSid st method sessionHeader toolName).1 =
      bump_calls st sessionHeader := by
  simp only [do_POST, if_neg hm]
  split
  · exact Or.inl rfl
  · split
    · exact Or.inr rfl
    · split
      · split
        · exact Or.inr rfl
        · exact Or.inr rfl
      · exact Or.inr rfl

/-- A fresh entry in the map after a POST: either the key was already there,
or this very POST was an `initialize` minting it. -/
theorem valid_session_applyOp (toolEval : String → Option (Except String ToolResult))
    (st : ServerState) (o : ServerOp) (sid : String)
    (h : valid_session (applyOp toolEval st o) sid = true) :
    valid_session st sid = true ∨
      ∃ hdr tn, o = ServerOp.post sid "initialize" hdr tn := by
  cases o with
  | del k =>
    left
    obtain ⟨p, hp, hps⟩ := List.any_eq_true.mp h
    obtain ⟨hmem, _⟩ := List.mem_filter.mp hp
    exact List.any_eq_true.mpr ⟨p, hmem, hps⟩
  | post fresh m hdr tn =>
    simp only [applyOp] at h
    by_cases hm : m = "initialize"
    · subst hm
      have hstate : (do_POST toolEval fresh st "initialize" hdr tn).1 =
          new_session st fresh := by simp [do_POST]
      rw [hstate] at h
      simp only [valid_session, new_session, List.any_append, Bool.or_eq_true] at h
      rcases h with h | h
      · left
        obtain ⟨p, hp, hps⟩ := List.any_eq_true.mp h
        obtain ⟨hmem, _⟩ := List.mem_filter.mp hp
        exact List.any_eq_true.mpr ⟨p, hmem, hps⟩
      · right
        simp only [List.any_cons, List.any_nil, Bool.or_false, decide_eq_true_eq] at h
        exact ⟨hdr, tn, by rw [h]⟩
    · left
      rcases do_POST_state_ne toolEval fresh st m hdr tn hm with hs | hs
      · rwa [hs] at h
      · rw [hs] at h
        rwa [valid_session_bump] at h

/-- Keys of the session map after a request trace: each was either present
initially or minted by an `initialize` request in the trace. -/
theorem valid_session_trace (toolEval : String → Option (Except String ToolResult))
    (ops : List ServerOp) :
    ∀ (st : ServerState) (sid : String),
      valid_session (ops.foldl (applyOp toolEval) st) sid = true →
      valid_session st sid = true ∨
        ∃ hdr tn, ServerOp.post sid "initialize" hdr tn ∈ ops := by
  induction ops with
  | nil => intro st sid h; exact Or.inl h
  | cons o rest ih =>
    intro st sid h
    rcases ih (applyOp toolEval st o) sid h with h' | ⟨hdr, tn, hmem⟩
    · rcases valid_session_applyOp toolEval st o sid h' with h'' | ⟨hdr, tn, rfl⟩
      · exact Or.inl h''
      · exact Or.inr ⟨hdr, tn, List.mem_cons_self _ _⟩
    · exact Or.inr ⟨hdr, tn, List.mem_cons_of_mem _ hmem⟩

-- ─────────────────────────────────────────────
-- C9
-- ─────────────────────────────────────────────

/-- C9: every non-initialize POST whose session header is missing or not a
key of the session map is answered with the protocol-level -32000 error and
is not dispatched (the map is untouched); an identifier removed by a DELETE
is subsequently rejected the same way; and any identifier the map accepts
was minted by a prior `initialize` handshake in the request trace. -/
theorem server_session_gating (toolEval : String → Option (Except String ToolResult))
    (st : ServerState) (freshSid method sessionHeader toolName sid : String)
    (ops : List ServerOp)
    (hm : method ≠ "initialize") :
    ((sessionHeader = "" ∨ valid_session st sessionHeader = false) →
      do_POST toolEval freshSid st method sessionHeader toolName =
        (st, .rpcError (-32000) "Invalid or missing session ID")) ∧
    (do_POST toolEval freshSid (do_DELETE st sid) method sid toolName =
      (do_DELETE st sid, .rpcError (-32000) "Invalid or missing session ID")) ∧
    (valid_session (applyOps toolEval ops) sid = true →
      ∃ hdr tn, ServerOp.post sid "initialize" hdr tn ∈ ops) := by
  refine ⟨?_, ?_, ?_⟩
  · intro hbad
    rcases hbad with h | h
    · simp [do_POST, hm, h]
    · simp [do_POST, hm, h]
  · have hv : ¬ valid_session (do_DELETE st sid) sid = true := by
      simp [valid_session_delete st sid]
    simp [do_POST, hm, hv]
  · intro h
    rcases valid_session_trace toolEval ops {} sid h with h' | h''
    · simp [valid_session] at h'
    · exact h''

/-- C9 witness: after deleting the only session "abc", a `tools/list`
request presenting "abc" is rejected with the -32000 protocol error. -/
theorem server_session_gating_witness :
    do_POST (fun _ => none) "f" (do_DELETE { sessions := [("abc", {})] } "abc")
        "tools/list" "abc" "t" =
      (do_DELETE { sessions := [("abc", {})] } "abc",
       .rpcError (-32000) "Invalid or missing session ID") :=
  (server_session_gating (fun _ => none) { sessions := [("abc", {})] }
    "f" "tools/list" "" "t" "abc" [] (by decide)).2.1

end Rebel
